import Mathlib

/-!
Verification of the DoubleTick customer-table core: the deterministic record
generator (`src/utils/dataGenerator.js`), the hybrid virtual store query engine
(`src/utils/indexedDB.js`), and the navigation offset mappers
(`src/components/CustomerTable.jsx`), shallowly embedded in Lean.

Strings are Lean `String`s; JS `toLowerCase`/`includes` are embedded as
`lowerStr`/`strIncludes`; timestamps are epoch milliseconds (`Int`), matching
`Date.now()`/`getTime()` (the ISO rendering is an injective view of the
instant, so comparing instants is faithful).  JS `Array.prototype.sort` with
the source's comparator is embedded as `List.insertionSort` over the relation
"comparator ≤ 0" (JS leaves the order of tie pairs unspecified; any
comparison sort realises this relation).
-/

namespace DoubleTick

/-- Embedding of JS `String.prototype.toLowerCase` (the data is ASCII, where
`Char.toLower` agrees with JS). -/
def lowerStr (s : String) : String := ⟨s.data.map Char.toLower⟩

/-- Embedding of JS `String.prototype.includes`: substring containment. -/
def strIncludes (s sub : String) : Bool := decide (sub.data <:+: s.data)

/-- `firstNames` table of `dataGenerator.js` (64 entries). -/
def firstNames : List String :=
  ["James", "Mary", "John", "Patricia", "Robert", "Jennifer", "Michael", "Linda",
   "William", "Barbara", "David", "Elizabeth", "Richard", "Susan", "Joseph", "Jessica",
   "Thomas", "Sarah", "Charles", "Karen", "Christopher", "Nancy", "Daniel", "Lisa",
   "Matthew", "Betty", "Anthony", "Margaret", "Mark", "Sandra", "Donald", "Ashley",
   "Steven", "Kimberly", "Paul", "Emily", "Andrew", "Donna", "Joshua", "Michelle",
   "Kevin", "Carol", "Brian", "Amanda", "George", "Melissa", "Edward", "Deborah",
   "Ronald", "Stephanie", "Timothy", "Rebecca", "Jason", "Sharon", "Jeffrey", "Laura",
   "Ryan", "Cynthia", "Jacob", "Kathleen", "Gary", "Amy", "Nicholas", "Angela"]

/-- `lastNames` table of `dataGenerator.js` (56 entries). -/
def lastNames : List String :=
  ["Smith", "Johnson", "Williams", "Brown", "Jones", "Garcia", "Miller", "Davis",
   "Rodriguez", "Martinez", "Hernandez", "Lopez", "Gonzalez", "Wilson", "Anderson",
   "Thomas", "Taylor", "Moore", "Jackson", "Martin", "Lee", "Perez", "Thompson",
   "White", "Harris", "Sanchez", "Clark", "Ramirez", "Lewis", "Robinson", "Walker",
   "Young", "Allen", "King", "Wright", "Scott", "Torres", "Nguyen", "Hill", "Flores",
   "Green", "Adams", "Nelson", "Baker", "Hall", "Rivera", "Campbell", "Mitchell",
   "Carter", "Roberts", "Gomez", "Phillips", "Evans", "Turner", "Diaz", "Parker"]

/-- `domains` table of `dataGenerator.js` (8 entries). -/
def domains : List String :=
  ["gmail.com", "yahoo.com", "outlook.com", "hotmail.com", "company.com",
   "icloud.com", "protonmail.com", "mail.com"]

/-- `agents` table of `dataGenerator.js` (8 entries). -/
def agents : List String :=
  ["Karthey Mishra", "Agent Smith", "Agent Jones", "Agent Brown", "Agent Taylor",
   "Agent Wilson", "Agent Anderson", "Agent Thomas"]

/-- Big-endian decimal digit characters of `n`, with explicit fuel so the
definition is structurally recursive (the fuel `n` always suffices, since the
number of decimal digits of `n` is at most `n` for `n ≥ 1`). -/
def decCharsAux : Nat → Nat → List Char
  | 0, _ => []
  | _ + 1, 0 => []
  | fuel + 1, n + 1 =>
    decCharsAux fuel ((n + 1) / 10) ++ [Char.ofNat (48 + (n + 1) % 10)]

/-- Embedding of JS `String(n)` for a non-negative integer: its decimal digits. -/
def decChars (n : Nat) : List Char :=
  if n = 0 then ['0'] else decCharsAux n n

/-- `String(n)` as a Lean `String`. -/
def decString (n : Nat) : String := ⟨decChars n⟩

/-- Embedding of JS `s.padStart(10, '0')`. -/
def padStart10 (s : String) : String :=
  ⟨List.replicate (10 - s.data.length) '0' ++ s.data⟩

/-- A customer record (`generateCustomer`'s return shape).  `lastMessageAt`
holds the instant in epoch milliseconds. -/
structure Customer where
  id : Nat
  name : String
  phone : String
  email : String
  score : Nat
  lastMessageAt : Int
  addedBy : String
  avatar : String
deriving DecidableEq

/-- Embedding of `generateCustomer` (`dataGenerator.js`, lines 56-91).
`now` is the value of `Date.now()` at generation time. -/
def generateCustomer (now : Int) (id : Nat) : Customer :=
  let firstName := firstNames.getD (id % firstNames.length) ""
  let lastNameIndex := (id / firstNames.length) % lastNames.length
  let lastName := lastNames.getD lastNameIndex ""
  let name := firstName ++ " " ++ lastName
  let emailStem := lowerStr firstName ++ "." ++ lowerStr lastName
  let domain := domains.getD (id % domains.length) ""
  let email := emailStem ++ decString id ++ "@" ++ domain
  let phone := "+1" ++ padStart10 (decString id)
  let score := (id * 7) % 100
  let addedBy := agents.getD (id % agents.length) ""
  let daysAgo := id % 365
  { id := id
    name := name
    phone := phone
    email := email
    score := score
    lastMessageAt := now - (daysAgo : Int) * (24 * 60 * 60 * 1000)
    addedBy := addedBy
    avatar := "https://api.dicebear.com/7.x/avataaars/svg?seed=" ++ decString id }

/-- The truncated `firstNames` table local to `generateVirtualCustomer`
(`indexedDB.js`): only 8 entries. -/
def vFirstNames : List String :=
  ["James", "Mary", "John", "Patricia", "Robert", "Jennifer", "Michael", "Linda"]

/-- The truncated `lastNames` table local to `generateVirtualCustomer`: 8 entries. -/
def vLastNames : List String :=
  ["Smith", "Johnson", "Williams", "Brown", "Jones", "Garcia", "Miller", "Davis"]

/-- The truncated `domains` table local to `generateVirtualCustomer`: 3 entries. -/
def vDomains : List String := ["gmail.com", "yahoo.com", "outlook.com"]

/-- The truncated `agents` table local to `generateVirtualCustomer`: 4 entries. -/
def vAgents : List String :=
  ["Karthey Mishra", "Agent Smith", "Agent Jones", "Agent Brown"]

/-- Embedding of `generateVirtualCustomer` (`indexedDB.js`, lines 227-252),
the on-the-fly synthesizer used by the no-search query path. -/
def generateVirtualCustomer (now : Int) (id : Nat) : Customer :=
  let firstName := vFirstNames.getD (id % vFirstNames.length) ""
  let lastName := vLastNames.getD ((id / vFirstNames.length) % vLastNames.length) ""
  let name := firstName ++ " " ++ lastName
  let email := lowerStr firstName ++ "." ++ lowerStr lastName ++ decString id ++ "@"
      ++ vDomains.getD (id % vDomains.length) ""
  let phone := "+1" ++ padStart10 (decString id)
  let score := (id * 7) % 100
  let addedBy := vAgents.getD (id % vAgents.length) ""
  { id := id
    name := name
    phone := phone
    email := email
    score := score
    lastMessageAt := now - ((id % 365 : Nat) : Int) * (24 * 60 * 60 * 1000)
    addedBy := addedBy
    avatar := "https://api.dicebear.com/7.x/avataaars/svg?seed=" ++ decString id }

/-- `VIRTUAL_TOTAL` of `indexedDB.js`: the logical dataset size N. -/
def VIRTUAL_TOTAL : Nat := 1000000

/-- `ACTUAL_STORED` of `indexedDB.js`: the persisted-prefix size K. -/
def ACTUAL_STORED : Nat := 10000

/-- The sortable fields accepted by `getCustomers` (`sortBy` values). -/
inductive SortField where
  | id | name | phone | email | score | lastMessageAt
deriving DecidableEq

/-- `sortOrder` values of `getCustomers`. -/
inductive SortOrder where
  | asc | desc
deriving DecidableEq

/-- JS `a[sortBy] > b[sortBy]` of the sort comparator, for each field; for
`lastMessageAt` the source compares `new Date(v).getTime()`, which is the
stored instant. -/
def fieldGt (f : SortField) (a b : Customer) : Prop :=
  match f with
  | .id => a.id > b.id
  | .name => a.name > b.name
  | .phone => a.phone > b.phone
  | .email => a.email > b.email
  | .score => a.score > b.score
  | .lastMessageAt => a.lastMessageAt > b.lastMessageAt

/-- JS `a[sortBy] < b[sortBy]` of the sort comparator. -/
def fieldLt (f : SortField) (a b : Customer) : Prop :=
  match f with
  | .id => a.id < b.id
  | .name => a.name < b.name
  | .phone => a.phone < b.phone
  | .email => a.email < b.email
  | .score => a.score < b.score
  | .lastMessageAt => a.lastMessageAt < b.lastMessageAt

instance (f : SortField) (a b : Customer) : Decidable (fieldGt f a b) := by
  unfold fieldGt; cases f <;> infer_instance

instance (f : SortField) (a b : Customer) : Decidable (fieldLt f a b) := by
  unfold fieldLt; cases f <;> infer_instance

/-- The sort comparator of `getCustomers` (both query modes):
`asc` returns `aVal > bVal ? 1 : -1`, `desc` returns `aVal < bVal ? 1 : -1`. -/
def comparator (f : SortField) (o : SortOrder) (a b : Customer) : Int :=
  match o with
  | .asc => if fieldGt f a b then 1 else -1
  | .desc => if fieldLt f a b then 1 else -1

/-- "`a` may stay before `b`" under the JS comparator: `comparator a b ≤ 0`.
A comparison sort with the source's comparator realises exactly this
relation on the output (ties are unspecified in JS, and the relation holds
both ways on a tie). -/
def sortLe (f : SortField) (o : SortOrder) (a b : Customer) : Prop :=
  comparator f o a b ≤ 0

instance (f : SortField) (o : SortOrder) : DecidableRel (sortLe f o) := by
  intro a b; unfold sortLe; infer_instance

/-- `sortLe` lifted to the nullable entries of the no-search results array.
A `null` placeholder surviving to the sort makes the JS comparator throw
(`null[sortBy]`), so the ordering chosen for `none` here is immaterial: the
theorems below only use the sort on all-`some` windows (the state bulk
ingestion produces). -/
def optLe (f : SortField) (o : SortOrder) : Option Customer → Option Customer → Prop
  | none, _ => True
  | some _, none => False
  | some a, some b => sortLe f o a b

instance (f : SortField) (o : SortOrder) : DecidableRel (optLe f o) := by
  intro a b
  cases a <;> cases b <;> unfold optLe <;> infer_instance

/-- Result shape of `getCustomers`: `{ data, total, hasMore }`. -/
structure QueryResult where
  data : List Customer
  total : Nat
  hasMore : Bool
deriving DecidableEq

/-- `end = Math.min(offset + limit, VIRTUAL_TOTAL)` of the no-search path. -/
def windowEnd (offset limit : Nat) : Nat := min (offset + limit) VIRTUAL_TOTAL

/-- The results array after the first loop of the no-search path
(`indexedDB.js`, lines 278-291): window index `i ∈ [offset, end)` holds a
`null` placeholder when `i < ACTUAL_STORED` and `generateVirtualCustomer (i+1)`
otherwise. -/
def placeholders (now : Int) (offset limit : Nat) : List (Option Customer) :=
  (List.range (windowEnd offset limit - offset)).map fun j =>
    if offset + j < ACTUAL_STORED then none
    else some (generateVirtualCustomer now (offset + j + 1))

/-- `realData` collected by the cursor pass (`indexedDB.js`, lines 294-307):
the persisted records at cursor positions `[offset, end)` of the primary-key
scan (`store` lists the persisted records in primary-key order). -/
def realData (store : List Customer) (offset limit : Nat) : List Customer :=
  (store.drop offset).take (windowEnd offset limit - offset)

/-- The merged results array (`indexedDB.js`, lines 309-311): `realData`
overwrites `results[idx]` for `idx = 0, 1, ...` — by position from the
front, not by id. -/
def mergedWindow (now : Int) (store : List Customer) (offset limit : Nat) :
    List (Option Customer) :=
  (realData store offset limit).map some ++
    (placeholders now offset limit).drop (realData store offset limit).length

/-- The no-search mode of `getCustomers` (`indexedDB.js`, lines 276-342):
virtual total, merged window, page-local sort when `sortBy != id`, and
`data` drops the `null` entries (`results.filter(r => r !== null)`). -/
def getCustomersNoSearch (now : Int) (store : List Customer) (offset limit : Nat)
    (sortBy : SortField) (sortOrder : SortOrder) : QueryResult :=
  { data := (if sortBy = SortField.id then mergedWindow now store offset limit
             else List.insertionSort (optLe sortBy sortOrder)
               (mergedWindow now store offset limit)).filterMap id
    total := VIRTUAL_TOTAL
    hasMore := windowEnd offset limit < VIRTUAL_TOTAL }

/-- The search-match test of `getCustomers` (`indexedDB.js`, lines 356-360):
name or email contains the lowercased term (both sides lowercased), or the
phone contains the term verbatim. -/
def matchesSearch (search : String) (c : Customer) : Bool :=
  let searchLower := lowerStr search
  strIncludes (lowerStr c.name) searchLower ||
  strIncludes (lowerStr c.email) searchLower ||
  strIncludes c.phone search

/-- The matching set of the search path: every persisted record passing
`matchesSearch`, in primary-key scan order. -/
def searchResults (store : List Customer) (search : String) : List Customer :=
  store.filter (matchesSearch search)

/-- The search mode of `getCustomers` (`indexedDB.js`, lines 344-394): scan
all persisted records, filter by `matchesSearch`, sort the whole matching
set, then `slice(offset, offset + limit)`. -/
def getCustomersSearch (store : List Customer) (offset limit : Nat)
    (search : String) (sortBy : SortField) (sortOrder : SortOrder) : QueryResult :=
  { data := ((List.insertionSort (sortLe sortBy sortOrder)
               (searchResults store search)).drop offset).take limit
    total := (searchResults store search).length
    hasMore := offset + limit < (searchResults store search).length }

/-- Embedding of `getCustomers` (`indexedDB.js`, lines 264-397): the
`if (!search)` dispatch between the two modes (`search` is a string, so
`!search` holds exactly for the empty term). -/
def getCustomers (now : Int) (store : List Customer) (offset limit : Nat)
    (search : String) (sortBy : SortField) (sortOrder : SortOrder) : QueryResult :=
  if search = "" then getCustomersNoSearch now store offset limit sortBy sortOrder
  else getCustomersSearch store offset limit search sortBy sortOrder

/-- `ITEMS_PER_PAGE` of `CustomerTable.jsx`. -/
def ITEMS_PER_PAGE : Int := 30

/-- Offset computed by `updateScrollPosition` (`CustomerTable.jsx`, lines
484-496) from a scrollbar hit at height `y` of a track of height `height`:
clamp the fraction to `[0,1]`, scale to a row, clamp to
`[0, totalCount - ITEMS_PER_PAGE]`. -/
def updateScrollPositionOffset (totalCount : Nat) (y height : ℚ) : Int :=
  let percentage := max 0 (min 1 (y / height))
  let targetRow : Int := ⌊percentage * (totalCount : ℚ)⌋
  max 0 (min ((totalCount : Int) - ITEMS_PER_PAGE) targetRow)

/-- Offset computed by `handleWheel` (`CustomerTable.jsx`, lines 501-509). -/
def handleWheelOffset (totalCount : Nat) (currentRow deltaY : Int) : Int :=
  let delta := if 0 < deltaY then ITEMS_PER_PAGE else -ITEMS_PER_PAGE
  max 0 (min ((totalCount : Int) - ITEMS_PER_PAGE) (currentRow - 1 + delta))

/-- The navigation keys handled by `handleKeyDown`. -/
inductive NavKey where
  | arrowDown | arrowUp | pageDown | pageUp | homeKey | endKey
deriving DecidableEq

/-- Offset computed by `handleKeyDown` (`CustomerTable.jsx`, lines 514-550)
for each handled key, starting from `newOffset = currentRow - 1`. -/
def handleKeyDownOffset (totalCount : Nat) (currentRow : Int) (k : NavKey) : Int :=
  let newOffset := currentRow - 1
  match k with
  | .arrowDown => min ((totalCount : Int) - ITEMS_PER_PAGE) (newOffset + 1)
  | .arrowUp => max 0 (newOffset - 1)
  | .pageDown => min ((totalCount : Int) - ITEMS_PER_PAGE) (newOffset + ITEMS_PER_PAGE)
  | .pageUp => max 0 (newOffset - ITEMS_PER_PAGE)
  | .homeKey => 0
  | .endKey => (totalCount : Int) - ITEMS_PER_PAGE

/-- Offset computed by `handleJumpToRow` (`CustomerTable.jsx`, lines 643-654):
`none` when the guard `rowNumber >= 1 && rowNumber <= totalCount` rejects the
input (nothing is loaded), otherwise `max 0 (rowNumber - 1)`. -/
def handleJumpToRowOffset (totalCount : Nat) (rowNumber : Int) : Option Int :=
  if 1 ≤ rowNumber ∧ rowNumber ≤ (totalCount : Int) then some (max 0 (rowNumber - 1))
  else none

/-- The navigation state `handleJumpToRow` can touch: `currentRow` (set by
`loadCustomersAtOffset` to `offset + 1`) and `scrollPercentage`. -/
structure NavState where
  currentRow : Int
  scrollPercentage : ℚ
deriving DecidableEq

/-- State transition of `handleJumpToRow`: on an accepted row it sets
`scrollPercentage` to `offset / totalCount` and loads the page (which sets
`currentRow` to `offset + 1`); on a rejected row it changes nothing. -/
def handleJumpToRow (totalCount : Nat) (st : NavState) (rowNumber : Int) : NavState :=
  match handleJumpToRowOffset totalCount rowNumber with
  | some offset => { currentRow := offset + 1
                     scrollPercentage := (offset : ℚ) / (totalCount : ℚ) }
  | none => st

/-- "key of `a` is at most key of `b`" in the native order of the sort field:
the order the claims describe. -/
def fieldLe (f : SortField) (a b : Customer) : Prop := ¬ fieldGt f a b

theorem fieldLt_iff_swap (f : SortField) (a b : Customer) :
    fieldLt f a b ↔ fieldGt f b a := by
  cases f <;> rfl

theorem fieldLe_total (f : SortField) (a b : Customer) :
    fieldLe f a b ∨ fieldLe f b a := by
  unfold fieldLe fieldGt
  cases f <;> simp only [gt_iff_lt, not_lt] <;> exact le_total _ _

theorem fieldLe_trans (f : SortField) {a b c : Customer} :
    fieldLe f a b → fieldLe f b c → fieldLe f a c := by
  unfold fieldLe fieldGt
  cases f <;> simp only [gt_iff_lt, not_lt] <;>
    exact fun h1 h2 => le_trans h1 h2

theorem sortLe_asc_iff (f : SortField) (a b : Customer) :
    sortLe f .asc a b ↔ fieldLe f a b := by
  show (if fieldGt f a b then (1 : Int) else -1) ≤ 0 ↔ ¬ fieldGt f a b
  by_cases h : fieldGt f a b
  · rw [if_pos h]
    constructor
    · intro h10; omega
    · intro hn; exact absurd h hn
  · rw [if_neg h]
    constructor
    · intro _; exact h
    · intro _; omega

theorem sortLe_desc_iff (f : SortField) (a b : Customer) :
    sortLe f .desc a b ↔ fieldLe f b a := by
  show (if fieldLt f a b then (1 : Int) else -1) ≤ 0 ↔ ¬ fieldGt f b a
  by_cases h : fieldGt f b a
  · rw [if_pos ((fieldLt_iff_swap f a b).mpr h)]
    constructor
    · intro h10; omega
    · intro hn; exact absurd h hn
  · rw [if_neg (fun hlt => h ((fieldLt_iff_swap f a b).mp hlt))]
    constructor
    · intro _; exact h
    · intro _; omega

theorem sortLe_total (f : SortField) (o : SortOrder) (a b : Customer) :
    sortLe f o a b ∨ sortLe f o b a := by
  cases o
  · rw [sortLe_asc_iff, sortLe_asc_iff]; exact fieldLe_total f a b
  · rw [sortLe_desc_iff, sortLe_desc_iff]; exact fieldLe_total f b a

theorem sortLe_trans (f : SortField) (o : SortOrder) {a b c : Customer} :
    sortLe f o a b → sortLe f o b c → sortLe f o a c := by
  cases o
  · rw [sortLe_asc_iff, sortLe_asc_iff, sortLe_asc_iff]
    exact fieldLe_trans f
  · rw [sortLe_desc_iff, sortLe_desc_iff, sortLe_desc_iff]
    exact fun h1 h2 => fieldLe_trans f h2 h1

theorem optLe_total (f : SortField) (o : SortOrder) (a b : Option Customer) :
    optLe f o a b ∨ optLe f o b a := by
  cases a <;> cases b <;> simp only [optLe]
  · left; trivial
  · left; trivial
  · right; trivial
  · exact sortLe_total f o _ _

theorem optLe_trans (f : SortField) (o : SortOrder) {a b c : Option Customer} :
    optLe f o a b → optLe f o b c → optLe f o a c := by
  cases a <;> cases b <;> cases c <;> simp only [optLe] <;>
    first
      | exact fun _ _ => trivial
      | exact fun h _ => h.elim
      | exact fun _ h => h.elim
      | exact sortLe_trans f o

/-- C8: at a fixed reference time the generator is a pure function of the id
(two runs agree), and across two reference times every field except
`lastMessageAt` is unchanged. -/
theorem generateCustomer_time_invariance (id : Nat) (now now' : Int) :
    generateCustomer now id = generateCustomer now id ∧
    (generateCustomer now id).id = (generateCustomer now' id).id ∧
    (generateCustomer now id).name = (generateCustomer now' id).name ∧
    (generateCustomer now id).phone = (generateCustomer now' id).phone ∧
    (generateCustomer now id).email = (generateCustomer now' id).email ∧
    (generateCustomer now id).score = (generateCustomer now' id).score ∧
    (generateCustomer now id).addedBy = (generateCustomer now' id).addedBy ∧
    (generateCustomer now id).avatar = (generateCustomer now' id).avatar :=
  ⟨rfl, rfl, rfl, rfl, rfl, rfl, rfl, rfl⟩

/-- C7: a row number in `[1, total]` is mapped to offset `row - 1`; a row
number outside that range is rejected by the guard — no page is loaded and
the navigation state is unchanged. -/
theorem jumpToRow_spec (totalCount : Nat) (st : NavState) (rowNumber : Int) :
    (1 ≤ rowNumber ∧ rowNumber ≤ (totalCount : Int) →
      handleJumpToRowOffset totalCount rowNumber = some (rowNumber - 1)) ∧
    ((rowNumber < 1 ∨ (totalCount : Int) < rowNumber) →
      handleJumpToRowOffset totalCount rowNumber = none ∧
      handleJumpToRow totalCount st rowNumber = st) := by
  constructor
  · intro h
    unfold handleJumpToRowOffset
    rw [if_pos h]
    congr 1
    omega
  · intro h
    have hn : ¬ (1 ≤ rowNumber ∧ rowNumber ≤ (totalCount : Int)) := by omega
    refine ⟨?_, ?_⟩
    · unfold handleJumpToRowOffset
      rw [if_neg hn]
    · unfold handleJumpToRow handleJumpToRowOffset
      rw [if_neg hn]

theorem jumpToRow_spec_witness :
    (handleJumpToRowOffset 1000000 5 = some (5 - 1)) ∧
    (handleJumpToRowOffset 1000000 0 = none ∧
      handleJumpToRow 1000000 ⟨1, 0⟩ 0 = ⟨1, 0⟩) :=
  ⟨(jumpToRow_spec 1000000 ⟨1, 0⟩ 5).1 (by norm_num),
   (jumpToRow_spec 1000000 ⟨1, 0⟩ 0).2 (by norm_num)⟩

/-- C3 (counterexample): jumping to row 1,000,000 with total 1,000,000
computes offset 999,999, which exceeds `total - ITEMS_PER_PAGE = 999,970` —
the jump path clamps only from below. -/
theorem jumpToRow_exceeds_pageBound :
    handleJumpToRowOffset 1000000 1000000 = some 999999 ∧
    ¬ ((999999 : Int) ≤ (1000000 : Int) - ITEMS_PER_PAGE) := by
  constructor
  · unfold handleJumpToRowOffset
    norm_num
  · unfold ITEMS_PER_PAGE
    norm_num

/-- C3 (amended): the scrollbar and wheel mappers always clamp the target
offset into `[0, total - pageSize]` when `total ≥ pageSize`, and keyboard
stepping stays in that interval provided the current offset is already in
it; the jump-to-row mapper, however, clamps only from below: an accepted
row is mapped to `row - 1`, which is only bounded by `total - 1` and
exceeds `total - pageSize` for rows above `total - pageSize + 1`. -/
theorem navigation_offsets_amended (totalCount : Nat) (y height : ℚ)
    (currentRow deltaY : Int) (k : NavKey) (rowNumber : Int)
    (htot : ITEMS_PER_PAGE ≤ (totalCount : Int)) :
    (0 ≤ updateScrollPositionOffset totalCount y height ∧
      updateScrollPositionOffset totalCount y height ≤
        (totalCount : Int) - ITEMS_PER_PAGE) ∧
    (0 ≤ handleWheelOffset totalCount currentRow deltaY ∧
      handleWheelOffset totalCount currentRow deltaY ≤
        (totalCount : Int) - ITEMS_PER_PAGE) ∧
    (0 ≤ currentRow - 1 ∧ currentRow - 1 ≤ (totalCount : Int) - ITEMS_PER_PAGE →
      0 ≤ handleKeyDownOffset totalCount currentRow k ∧
      handleKeyDownOffset totalCount currentRow k ≤
        (totalCount : Int) - ITEMS_PER_PAGE) ∧
    (1 ≤ rowNumber ∧ rowNumber ≤ (totalCount : Int) →
      handleJumpToRowOffset totalCount rowNumber = some (rowNumber - 1) ∧
      0 ≤ rowNumber - 1 ∧ rowNumber - 1 ≤ (totalCount : Int) - 1) := by
  refine ⟨?_, ?_, ?_, ?_⟩
  · unfold updateScrollPositionOffset
    constructor
    · exact le_max_left 0 _
    · exact max_le (by omega) (min_le_left _ _)
  · unfold handleWheelOffset
    constructor
    · exact le_max_left 0 _
    · exact max_le (by omega) (min_le_left _ _)
  · intro h
    unfold ITEMS_PER_PAGE at htot h
    cases k <;> simp only [handleKeyDownOffset, ITEMS_PER_PAGE] <;> omega
  · intro h
    refine ⟨(jumpToRow_spec totalCount ⟨1, 0⟩ rowNumber).1 h, by omega, by omega⟩

theorem navigation_offsets_amended_witness :
    ((0 ≤ updateScrollPositionOffset 1000000 1 2 ∧
      updateScrollPositionOffset 1000000 1 2 ≤ (1000000 : Int) - ITEMS_PER_PAGE) ∧
    (0 ≤ handleWheelOffset 1000000 1 1 ∧
      handleWheelOffset 1000000 1 1 ≤ (1000000 : Int) - ITEMS_PER_PAGE) ∧
    (0 ≤ (1 : Int) - 1 ∧ (1 : Int) - 1 ≤ (1000000 : Int) - ITEMS_PER_PAGE →
      0 ≤ handleKeyDownOffset 1000000 1 .arrowDown ∧
      handleKeyDownOffset 1000000 1 .arrowDown ≤ (1000000 : Int) - ITEMS_PER_PAGE) ∧
    (1 ≤ (1 : Int) ∧ (1 : Int) ≤ (1000000 : Int) →
      handleJumpToRowOffset 1000000 1 = some (1 - 1) ∧
      0 ≤ (1 : Int) - 1 ∧ (1 : Int) - 1 ≤ (1000000 : Int) - 1)) :=
  navigation_offsets_amended 1000000 1 2 1 1 .arrowDown 1
    (by unfold ITEMS_PER_PAGE; norm_num)

/-- C2 (counterexample): for id 10001 — beyond the persisted prefix — the
record the no-search query path returns is `generateVirtualCustomer 10001`,
whose `name` ("Mary Williams", from the truncated 8-entry tables) differs
from `generateCustomer 10001`'s name ("Sarah Hall", from the full 64/56
tables): the synthesizer and the ingestion generator are not the same
function. -/
theorem virtualGenerator_ne_generateCustomer :
    (getCustomersNoSearch 0 [] 10000 1 .id .asc).data
      = [generateVirtualCustomer 0 10001] ∧
    (generateVirtualCustomer 0 10001).name ≠ (generateCustomer 0 10001).name := by
  constructor
  · decide
  · decide

theorem mergedWindow_eq_nil (now : Int) (store : List Customer) (offset limit : Nat)
    (h : VIRTUAL_TOTAL ≤ offset) : mergedWindow now store offset limit = [] := by
  have he : windowEnd offset limit - offset = 0 := by
    unfold windowEnd; omega
  unfold mergedWindow realData placeholders
  rw [he]
  simp

/-- C6: in both query modes `hasMore` is `false` exactly when
`offset + limit ≥ total`, and an offset at or beyond `total` is not an
error: the query still resolves, with an empty page and `hasMore = false`. -/
theorem hasMore_iff_and_overflow_empty (now : Int) (store : List Customer)
    (offset limit : Nat) (search : String) (sortBy : SortField)
    (sortOrder : SortOrder) :
    ((getCustomers now store offset limit search sortBy sortOrder).hasMore = false ↔
      (getCustomers now store offset limit search sortBy sortOrder).total ≤
        offset + limit) ∧
    ((getCustomers now store offset limit search sortBy sortOrder).total ≤ offset →
      (getCustomers now store offset limit search sortBy sortOrder).data = [] ∧
      (getCustomers now store offset limit search sortBy sortOrder).hasMore = false) := by
  unfold getCustomers
  by_cases hs : search = ""
  · rw [if_pos hs]
    refine ⟨?_, fun hov => ⟨?_, ?_⟩⟩
    · simp only [getCustomersNoSearch]
      rw [decide_eq_false_iff_not]
      unfold windowEnd VIRTUAL_TOTAL
      omega
    · simp only [getCustomersNoSearch] at hov ⊢
      rw [mergedWindow_eq_nil now store offset limit hov]
      split <;> simp
    · simp only [getCustomersNoSearch] at hov ⊢
      rw [decide_eq_false_iff_not]
      unfold VIRTUAL_TOTAL at hov
      unfold windowEnd VIRTUAL_TOTAL
      omega
  · rw [if_neg hs]
    refine ⟨?_, fun hov => ⟨?_, ?_⟩⟩
    · simp only [getCustomersSearch]
      rw [decide_eq_false_iff_not]
      omega
    · simp only [getCustomersSearch] at hov ⊢
      have hlen : (List.insertionSort (sortLe sortBy sortOrder)
          (searchResults store search)).length = (searchResults store search).length :=
        (List.perm_insertionSort _ _).length_eq
      rw [List.drop_eq_nil_of_le (by omega)]
      simp
    · simp only [getCustomersSearch] at hov ⊢
      rw [decide_eq_false_iff_not]
      omega

theorem hasMore_iff_and_overflow_empty_witness :
    (((getCustomers 0 [] 0 30 "" .id .asc).hasMore = false ↔
      (getCustomers 0 [] 0 30 "" .id .asc).total ≤ 0 + 30) ∧
    ((getCustomers 0 [] 0 30 "" .id .asc).total ≤ 0 →
      (getCustomers 0 [] 0 30 "" .id .asc).data = [] ∧
      (getCustomers 0 [] 0 30 "" .id .asc).hasMore = false)) :=
  hasMore_iff_and_overflow_empty 0 [] 0 30 "" .id .asc

/-- C1 (counterexample): with a store persisting only id 1 (id 2 was never
written), the no-search window `[0, 2)` with `sortField = id` returns a page
of length 1, not `min(limit, N - offset) = 2`: the `null` placeholder of the
unwritten id is filtered out instead of being replaced by the generated
record for id 2. -/
theorem noSearch_unwritten_id_not_synthesized :
    (getCustomersNoSearch 0 [generateCustomer 0 1] 0 2 .id .asc).data.length = 1 ∧
    (getCustomersNoSearch 0 [generateCustomer 0 1] 0 2 .id .asc).data.length ≠
      min 2 (VIRTUAL_TOTAL - 0) := by
  constructor
  · decide
  · decide

/-- Default record used only to total `List.getD` at indices that are
provably in bounds. -/
def dfltCustomer : Customer :=
  { id := 0, name := "", phone := "", email := "", score := 0,
    lastMessageAt := 0, addedBy := "", avatar := "" }

theorem filterMap_id_map_some {α β : Type} (f : α → β) (l : List α) :
    (l.map fun a => some (f a)).filterMap id = l.map f := by
  induction l with
  | nil => rfl
  | cons a t ih => simp [ih]

/-- When the store holds exactly `ACTUAL_STORED` records, the merged results
array of the no-search path is the clean window: position `j` holds the
persisted record at store position `offset + j` when `offset + j` is below
the prefix bound, and the synthesized record for id `offset + j + 1`
otherwise. -/
theorem mergedWindow_eq_of_denseStore (now : Int) (store : List Customer)
    (offset limit : Nat) (hlen : store.length = ACTUAL_STORED) :
    mergedWindow now store offset limit =
      (List.range (windowEnd offset limit - offset)).map fun j =>
        some (if offset + j < ACTUAL_STORED then store.getD (offset + j) dfltCustomer
              else generateVirtualCustomer now (offset + j + 1)) := by
  have hrd : (realData store offset limit).length =
      min (windowEnd offset limit - offset) (store.length - offset) := by
    unfold realData
    rw [List.length_take, List.length_drop]
  have hpl : (placeholders now offset limit).length =
      windowEnd offset limit - offset := by
    unfold placeholders
    rw [List.length_map, List.length_range]
  apply List.ext_getElem?
  intro i
  by_cases hi : i < windowEnd offset limit - offset
  · rw [List.getElem?_map, List.getElem?_range hi]
    by_cases hir : i < (realData store offset limit).length
    · have his : offset + i < store.length := by omega
      have hK : offset + i < ACTUAL_STORED := by omega
      unfold mergedWindow
      rw [List.getElem?_append_left (by rw [List.length_map]; exact hir)]
      rw [List.getElem?_map]
      unfold realData
      rw [List.getElem?_take_of_lt hi, List.getElem?_drop,
        List.getElem?_eq_getElem his]
      simp only [Option.map_some']
      rw [if_pos hK, List.getD_eq_getElem?_getD, List.getElem?_eq_getElem his]
      rfl
    · have hK : ¬ (offset + i < ACTUAL_STORED) := by omega
      unfold mergedWindow
      rw [List.getElem?_append_right (by rw [List.length_map]; omega)]
      rw [List.length_map, List.getElem?_drop]
      have hii : (realData store offset limit).length +
          (i - (realData store offset limit).length) = i := by omega
      rw [hii]
      unfold placeholders
      rw [List.getElem?_map, List.getElem?_range hi]
      simp only [Option.map_some']
      rw [if_neg hK, if_neg hK]
  · have h1 : (mergedWindow now store offset limit).length ≤ i := by
      unfold mergedWindow
      rw [List.length_append, List.length_map, List.length_drop]
      omega
    rw [List.getElem?_eq_none h1,
      List.getElem?_eq_none (by rw [List.length_map, List.length_range]; omega)]

/-- C1 (amended): provided the persisted store holds exactly the dense
prefix — `ACTUAL_STORED` records whose `j`-th entry has id `j + 1`, the
state bulk ingestion produces — the no-search query with `sortField = id`
reports `total = VIRTUAL_TOTAL`, returns exactly
`min(limit, VIRTUAL_TOTAL - offset)` records, and window entry `j` is the
persisted record with id `offset + j + 1` when `offset + j < ACTUAL_STORED`
and the synthesizer's record for that id otherwise (so every entry has id
`offset + j + 1`).  Without the dense-prefix assumption the code does not
synthesize an unwritten id below the prefix bound: its placeholder is
dropped (see the counterexample). -/
theorem noSearch_densePrefix_window (now : Int) (store : List Customer)
    (offset limit : Nat) (sortOrder : SortOrder)
    (hlen : store.length = ACTUAL_STORED)
    (hid : ∀ (j : Nat) (h : j < store.length), store[j].id = j + 1)
    (hlim : 0 < limit) :
    (getCustomersNoSearch now store offset limit .id sortOrder).total =
      VIRTUAL_TOTAL ∧
    (getCustomersNoSearch now store offset limit .id sortOrder).data.length =
      min limit (VIRTUAL_TOTAL - offset) ∧
    (getCustomersNoSearch now store offset limit .id sortOrder).data =
      (List.range (min limit (VIRTUAL_TOTAL - offset))).map (fun j =>
        if offset + j < ACTUAL_STORED then store.getD (offset + j) dfltCustomer
        else generateVirtualCustomer now (offset + j + 1)) ∧
    (getCustomersNoSearch now store offset limit .id sortOrder).data.map
        Customer.id =
      (List.range (min limit (VIRTUAL_TOTAL - offset))).map
        (fun j => offset + j + 1) := by
  have hwe : windowEnd offset limit - offset = min limit (VIRTUAL_TOTAL - offset) := by
    unfold windowEnd VIRTUAL_TOTAL
    omega
  have hdata : (getCustomersNoSearch now store offset limit .id sortOrder).data =
      (List.range (min limit (VIRTUAL_TOTAL - offset))).map (fun j =>
        if offset + j < ACTUAL_STORED then store.getD (offset + j) dfltCustomer
        else generateVirtualCustomer now (offset + j + 1)) := by
    simp only [getCustomersNoSearch, if_pos rfl]
    rw [mergedWindow_eq_of_denseStore now store offset limit hlen, hwe]
    exact filterMap_id_map_some _ _
  refine ⟨rfl, ?_, hdata, ?_⟩
  · rw [hdata, List.length_map, List.length_range]
  · rw [hdata, List.map_map]
    apply List.map_congr_left
    intro j hj
    have hjlt : j < min limit (VIRTUAL_TOTAL - offset) := List.mem_range.mp hj
    by_cases hK : offset + j < ACTUAL_STORED
    · have hjs : offset + j < store.length := by omega
      simp only [Function.comp, if_pos hK]
      rw [List.getD_eq_getElem?_getD, List.getElem?_eq_getElem hjs]
      exact hid (offset + j) hjs
    · simp only [Function.comp, if_neg hK]
      rfl

/-- The reference store state: bulk ingestion writes exactly the records
`generateCustomer (j + 1)` for `j < ACTUAL_STORED` (see `App.jsx` and
`saveCustomerBatches`). -/
def refStore : List Customer :=
  (List.range ACTUAL_STORED).map fun j => generateCustomer 0 (j + 1)

theorem refStore_length : refStore.length = ACTUAL_STORED := by
  unfold refStore
  rw [List.length_map, List.length_range]

theorem refStore_id (j : Nat) (h : j < refStore.length) : refStore[j].id = j + 1 := by
  unfold refStore at h ⊢
  rw [List.getElem_map]
  rw [List.getElem_range]
  rfl

theorem noSearch_densePrefix_window_witness :
    (getCustomersNoSearch 0 refStore 0 30 .id .asc).total = VIRTUAL_TOTAL ∧
    (getCustomersNoSearch 0 refStore 0 30 .id .asc).data.length =
      min 30 (VIRTUAL_TOTAL - 0) ∧
    (getCustomersNoSearch 0 refStore 0 30 .id .asc).data =
      (List.range (min 30 (VIRTUAL_TOTAL - 0))).map (fun j =>
        if 0 + j < ACTUAL_STORED then refStore.getD (0 + j) dfltCustomer
        else generateVirtualCustomer 0 (0 + j + 1)) ∧
    (getCustomersNoSearch 0 refStore 0 30 .id .asc).data.map Customer.id =
      (List.range (min 30 (VIRTUAL_TOTAL - 0))).map (fun j => 0 + j + 1) :=
  noSearch_densePrefix_window 0 refStore 0 30 .asc refStore_length refStore_id
    (by norm_num)

/-- C5: for a no-search query with `sortField ≠ id` (on a store holding at
least the persisted prefix, so no `null` placeholder survives to the JS
sort), the returned page is a permutation of the records of the fetched
window only — the merged window for this offset, not the full logical
dataset — and it is ordered by the requested field: non-decreasing for
`asc` and non-increasing for `desc`, each field compared by the native
order of its type (`lastMessageAt` by its instant value). -/
theorem noSearch_pageSort_perm_sorted (now : Int) (store : List Customer)
    (offset limit : Nat) (sortBy : SortField) (sortOrder : SortOrder)
    (hf : sortBy ≠ SortField.id) (hlen : ACTUAL_STORED ≤ store.length) :
    (getCustomersNoSearch now store offset limit sortBy sortOrder).data.Perm
      ((mergedWindow now store offset limit).filterMap id) ∧
    (sortOrder = .asc →
      (getCustomersNoSearch now store offset limit sortBy sortOrder).data.Pairwise
        (fieldLe sortBy)) ∧
    (sortOrder = .desc →
      (getCustomersNoSearch now store offset limit sortBy sortOrder).data.Pairwise
        (fun a b => fieldLe sortBy b a)) := by
  have hdata : (getCustomersNoSearch now store offset limit sortBy sortOrder).data =
      (List.insertionSort (optLe sortBy sortOrder)
        (mergedWindow now store offset limit)).filterMap id := by
    simp only [getCustomersNoSearch, if_neg hf]
  haveI : IsTotal (Option Customer) (optLe sortBy sortOrder) :=
    ⟨optLe_total sortBy sortOrder⟩
  haveI : IsTrans (Option Customer) (optLe sortBy sortOrder) :=
    ⟨fun _ _ _ => optLe_trans sortBy sortOrder⟩
  have hsorted : List.Sorted (optLe sortBy sortOrder)
      (List.insertionSort (optLe sortBy sortOrder)
        (mergedWindow now store offset limit)) :=
    List.sorted_insertionSort _ _
  have hperm := List.perm_insertionSort (optLe sortBy sortOrder)
    (mergedWindow now store offset limit)
  have hpw : ((List.insertionSort (optLe sortBy sortOrder)
      (mergedWindow now store offset limit)).filterMap id).Pairwise
        (sortLe sortBy sortOrder) := by
    refine List.Pairwise.filterMap id ?_ hsorted
    intro a a' hR b hb b' hb'
    rw [Option.mem_def] at hb hb'
    subst hb
    subst hb'
    exact hR
  refine ⟨?_, ?_, ?_⟩
  · rw [hdata]
    exact hperm.filterMap id
  · intro ho
    subst ho
    rw [hdata]
    exact hpw.imp fun h => (sortLe_asc_iff _ _ _).mp h
  · intro ho
    subst ho
    rw [hdata]
    exact hpw.imp fun h => (sortLe_desc_iff _ _ _).mp h

theorem noSearch_pageSort_perm_sorted_witness :
    ((getCustomersNoSearch 0 refStore 0 2 .name .asc).data.Perm
      ((mergedWindow 0 refStore 0 2).filterMap id) ∧
    (SortOrder.asc = .asc →
      (getCustomersNoSearch 0 refStore 0 2 .name .asc).data.Pairwise
        (fieldLe .name)) ∧
    (SortOrder.asc = .desc →
      (getCustomersNoSearch 0 refStore 0 2 .name .asc).data.Pairwise
        (fun a b => fieldLe .name b a))) :=
  noSearch_pageSort_perm_sorted 0 refStore 0 2 .name .asc (by decide)
    (le_of_eq refStore_length.symm)

/-- C2 (amended): beyond the persisted prefix the no-search query path
returns `generateVirtualCustomer (i+1)` for window index `i`, and that
synthesizer agrees with `generateCustomer` (at the same reference time) on
`id`, `phone`, `score`, `lastMessageAt` and `avatar` — but it is not the
same function field for field: it draws names, email domains and agents
from truncated tables (8 first names, 8 last names, 3 domains, 4 agents
instead of 64/56/8/8), so `name`, `email` and `addedBy` differ in general
(see the counterexample). -/
theorem virtualGenerator_partial_agreement (now : Int) (store : List Customer)
    (offset limit : Nat) (sortOrder : SortOrder)
    (h1 : store.length ≤ ACTUAL_STORED) (h2 : ACTUAL_STORED ≤ offset) :
    (getCustomersNoSearch now store offset limit .id sortOrder).data =
      (List.range (min limit (VIRTUAL_TOTAL - offset))).map
        (fun j => generateVirtualCustomer now (offset + j + 1)) ∧
    ∀ id : Nat,
      (generateVirtualCustomer now id).id = (generateCustomer now id).id ∧
      (generateVirtualCustomer now id).phone = (generateCustomer now id).phone ∧
      (generateVirtualCustomer now id).score = (generateCustomer now id).score ∧
      (generateVirtualCustomer now id).lastMessageAt =
        (generateCustomer now id).lastMessageAt ∧
      (generateVirtualCustomer now id).avatar = (generateCustomer now id).avatar := by
  constructor
  · have hreal : realData store offset limit = [] := by
      unfold realData
      rw [List.drop_eq_nil_of_le (by omega)]
      exact List.take_nil
    have hmw : mergedWindow now store offset limit = placeholders now offset limit := by
      unfold mergedWindow
      rw [hreal]
      simp
    have hwe : windowEnd offset limit - offset = min limit (VIRTUAL_TOTAL - offset) := by
      unfold windowEnd VIRTUAL_TOTAL
      omega
    simp only [getCustomersNoSearch, if_pos rfl]
    rw [hmw]
    unfold placeholders
    rw [hwe]
    have hcong : ∀ j ∈ List.range (min limit (VIRTUAL_TOTAL - offset)),
        (if offset + j < ACTUAL_STORED then none
         else some (generateVirtualCustomer now (offset + j + 1))) =
          some (generateVirtualCustomer now (offset + j + 1)) :=
      fun j _ => if_neg (by omega)
    rw [List.map_congr_left hcong]
    exact filterMap_id_map_some _ _
  · intro id
    exact ⟨rfl, rfl, rfl, rfl, rfl⟩

theorem virtualGenerator_partial_agreement_witness :
    ((getCustomersNoSearch 0 [] 10000 2 .id .asc).data =
      (List.range (min 2 (VIRTUAL_TOTAL - 10000))).map
        (fun j => generateVirtualCustomer 0 (10000 + j + 1)) ∧
    ∀ id : Nat,
      (generateVirtualCustomer 0 id).id = (generateCustomer 0 id).id ∧
      (generateVirtualCustomer 0 id).phone = (generateCustomer 0 id).phone ∧
      (generateVirtualCustomer 0 id).score = (generateCustomer 0 id).score ∧
      (generateVirtualCustomer 0 id).lastMessageAt =
        (generateCustomer 0 id).lastMessageAt ∧
      (generateVirtualCustomer 0 id).avatar = (generateCustomer 0 id).avatar) :=
  virtualGenerator_partial_agreement 0 [] 10000 2 .asc (by decide) (by decide)

/-- C4: for a query with a non-empty search term the engine works on the
persisted records only: `total` is the number of matching persisted records;
the page is the `[offset, offset + limit)` slice of the entire matching set
sorted by the requested field and direction; every page record is a
persisted record that satisfies the matching rule (name or email contains
the term case-insensitively, or phone contains it verbatim); and when every
persisted id is at most `ACTUAL_STORED`, no record with a larger id (hence
no synthesized record) ever appears in the page. -/
theorem search_query_spec (now : Int) (store : List Customer)
    (offset limit : Nat) (search : String) (sortBy : SortField)
    (sortOrder : SortOrder) (hs : search ≠ "") :
    (getCustomers now store offset limit search sortBy sortOrder).total =
      (searchResults store search).length ∧
    (∃ sortedAll : List Customer,
      sortedAll.Perm (searchResults store search) ∧
      (sortOrder = .asc → sortedAll.Pairwise (fieldLe sortBy)) ∧
      (sortOrder = .desc → sortedAll.Pairwise (fun a b => fieldLe sortBy b a)) ∧
      (getCustomers now store offset limit search sortBy sortOrder).data =
        (sortedAll.drop offset).take limit) ∧
    (∀ r ∈ (getCustomers now store offset limit search sortBy sortOrder).data,
      r ∈ store ∧ matchesSearch search r = true) ∧
    (∀ r ∈ (getCustomers now store offset limit search sortBy sortOrder).data,
      (lowerStr search).data <:+: (lowerStr r.name).data ∨
      (lowerStr search).data <:+: (lowerStr r.email).data ∨
      search.data <:+: r.phone.data) ∧
    ((∀ r ∈ store, r.id ≤ ACTUAL_STORED) →
      ∀ r ∈ (getCustomers now store offset limit search sortBy sortOrder).data,
        r.id ≤ ACTUAL_STORED) := by
  have hq : getCustomers now store offset limit search sortBy sortOrder =
      getCustomersSearch store offset limit search sortBy sortOrder := by
    unfold getCustomers
    rw [if_neg hs]
  rw [hq]
  haveI : IsTotal Customer (sortLe sortBy sortOrder) :=
    ⟨sortLe_total sortBy sortOrder⟩
  haveI : IsTrans Customer (sortLe sortBy sortOrder) :=
    ⟨fun _ _ _ => sortLe_trans sortBy sortOrder⟩
  have hperm := List.perm_insertionSort (sortLe sortBy sortOrder)
    (searchResults store search)
  have hsorted := List.sorted_insertionSort (sortLe sortBy sortOrder)
    (searchResults store search)
  have hmem : ∀ r ∈ (getCustomersSearch store offset limit search sortBy
      sortOrder).data, r ∈ store ∧ matchesSearch search r = true := by
    intro r hr
    simp only [getCustomersSearch] at hr
    have hr1 := List.mem_of_mem_take hr
    have hr2 := List.mem_of_mem_drop hr1
    have hr3 := hperm.mem_iff.mp hr2
    unfold searchResults at hr3
    exact List.mem_filter.mp hr3
  refine ⟨rfl,
    ⟨List.insertionSort (sortLe sortBy sortOrder) (searchResults store search),
      hperm, ?_, ?_, rfl⟩, hmem, ?_, ?_⟩
  · intro ho
    subst ho
    exact hsorted.imp fun h => (sortLe_asc_iff _ _ _).mp h
  · intro ho
    subst ho
    exact hsorted.imp fun h => (sortLe_desc_iff _ _ _).mp h
  · intro r hr
    have hm := (hmem r hr).2
    unfold matchesSearch strIncludes at hm
    simp only [Bool.or_eq_true, decide_eq_true_eq] at hm
    tauto
  · intro hids r hr
    exact hids r (hmem r hr).1

theorem search_query_spec_witness :
    ((getCustomers 0 [generateCustomer 0 2] 0 10 "john" .id .asc).total =
      (searchResults [generateCustomer 0 2] "john").length ∧
    (∃ sortedAll : List Customer,
      sortedAll.Perm (searchResults [generateCustomer 0 2] "john") ∧
      (SortOrder.asc = .asc → sortedAll.Pairwise (fieldLe .id)) ∧
      (SortOrder.asc = .desc → sortedAll.Pairwise (fun a b => fieldLe .id b a)) ∧
      (getCustomers 0 [generateCustomer 0 2] 0 10 "john" .id .asc).data =
        (sortedAll.drop 0).take 10) ∧
    (∀ r ∈ (getCustomers 0 [generateCustomer 0 2] 0 10 "john" .id .asc).data,
      r ∈ [generateCustomer 0 2] ∧ matchesSearch "john" r = true) ∧
    (∀ r ∈ (getCustomers 0 [generateCustomer 0 2] 0 10 "john" .id .asc).data,
      (lowerStr "john").data <:+: (lowerStr r.name).data ∨
      (lowerStr "john").data <:+: (lowerStr r.email).data ∨
      ("john" : String).data <:+: r.phone.data) ∧
    ((∀ r ∈ [generateCustomer 0 2], r.id ≤ ACTUAL_STORED) →
      ∀ r ∈ (getCustomers 0 [generateCustomer 0 2] 0 10 "john" .id .asc).data,
        r.id ≤ ACTUAL_STORED)) :=
  search_query_spec 0 [generateCustomer 0 2] 0 10 "john" .id .asc (by decide)

theorem toNat_ofNat_valid {n : Nat} (h : n.isValidChar) : (Char.ofNat n).toNat = n := by
  unfold Char.ofNat
  rw [dif_pos h]
  rfl

theorem toLower_toNat (c : Char) :
    (Char.toLower c).toNat =
      if c.toNat ≥ 65 ∧ c.toNat ≤ 90 then c.toNat + 32 else c.toNat := by
  unfold Char.toLower
  by_cases h : c.toNat ≥ 65 ∧ c.toNat ≤ 90
  · rw [if_pos h, if_pos h]
    exact toNat_ofNat_valid (Or.inl (by omega))
  · rw [if_neg h, if_neg h]

theorem char_toNat_inj {c d : Char} (h : c.toNat = d.toNat) : c = d :=
  Char.eq_of_val_eq (UInt32.toNat.inj h)

theorem toLower_idem (c : Char) :
    Char.toLower (Char.toLower c) = Char.toLower c := by
  apply char_toNat_inj
  rw [toLower_toNat, toLower_toNat]
  split_ifs <;> omega

theorem isDigit_iff (c : Char) : c.isDigit = true ↔ 48 ≤ c.toNat ∧ c.toNat ≤ 57 := by
  unfold Char.isDigit
  rw [Bool.and_eq_true, decide_eq_true_eq, decide_eq_true_eq]
  exact Iff.rfl

theorem lowerStr_data (s : String) : (lowerStr s).data = s.data.map Char.toLower := rfl

theorem lowerStr_idem (s : String) : lowerStr (lowerStr s) = lowerStr s := by
  unfold lowerStr
  apply congrArg String.mk
  show (s.data.map Char.toLower).map Char.toLower = s.data.map Char.toLower
  rw [List.map_map]
  exact List.map_congr_left fun c _ => toLower_idem c

theorem lowerStr_eq_empty_iff (s : String) : lowerStr s = "" ↔ s = "" := by
  constructor
  · intro h
    cases s with
    | mk l =>
      cases l with
      | nil => rfl
      | cons c t => exact absurd (congrArg String.data h) (by simp [lowerStr])
  · intro h
    subst h
    rfl

theorem toLower_eq_self_of_not_upper {c : Char}
    (hc : ¬ (c.toNat ≥ 65 ∧ c.toNat ≤ 90)) : Char.toLower c = c := by
  apply char_toNat_inj
  rw [toLower_toNat, if_neg hc]

/-- A phone character (`'+'` or a digit) is fixed by `toLower`. -/
theorem toLower_eq_self_of_phoneChar {c : Char}
    (h : c = '+' ∨ c.isDigit = true) : Char.toLower c = c := by
  rcases h with h | h
  · subst h
    decide
  · rw [isDigit_iff] at h
    exact toLower_eq_self_of_not_upper (by omega)

/-- If the lowercased character is a phone character then the original
character was already lowercase (an uppercase letter lowers into
`[97, 122]`, which contains neither `'+'` nor a digit). -/
theorem phoneChar_toLower_eq_self {c : Char}
    (h : Char.toLower c = '+' ∨ (Char.toLower c).isDigit = true) :
    Char.toLower c = c := by
  by_cases hc : c.toNat ≥ 65 ∧ c.toNat ≤ 90
  · exfalso
    have ht : (Char.toLower c).toNat = c.toNat + 32 := by
      rw [toLower_toNat, if_pos hc]
    rcases h with h | h
    · have h43 : (Char.toLower c).toNat = 43 := by rw [h]; rfl
      omega
    · rw [isDigit_iff] at h
      omega
  · exact toLower_eq_self_of_not_upper hc

/-- On a string of phone characters, substring containment cannot
distinguish a term from its lowercased form. -/
theorem includes_phone_lower (p s : String)
    (hp : ∀ c ∈ p.data, c = '+' ∨ c.isDigit = true) :
    ((lowerStr s).data <:+: p.data) ↔ (s.data <:+: p.data) := by
  rw [lowerStr_data]
  constructor
  · intro h
    have hfix : ∀ c ∈ s.data, Char.toLower c = c := by
      intro c hc
      have hmem : Char.toLower c ∈ p.data :=
        h.subset (List.mem_map_of_mem _ hc)
      exact phoneChar_toLower_eq_self (hp _ hmem)
    have hmap : s.data.map Char.toLower = s.data := by
      rw [List.map_congr_left hfix]
      exact List.map_id s.data
    rwa [hmap] at h
  · intro h
    have hfix : ∀ c ∈ s.data, Char.toLower c = c := by
      intro c hc
      exact toLower_eq_self_of_phoneChar (hp _ (h.subset hc))
    have hmap : s.data.map Char.toLower = s.data := by
      rw [List.map_congr_left hfix]
      exact List.map_id s.data
    rwa [hmap]

theorem matchesSearch_lower (search : String) (c : Customer)
    (hp : ∀ ch ∈ c.phone.data, ch = '+' ∨ ch.isDigit = true) :
    matchesSearch (lowerStr search) c = matchesSearch search c := by
  show (strIncludes (lowerStr c.name) (lowerStr (lowerStr search)) ||
        strIncludes (lowerStr c.email) (lowerStr (lowerStr search)) ||
        strIncludes c.phone (lowerStr search)) =
      (strIncludes (lowerStr c.name) (lowerStr search) ||
        strIncludes (lowerStr c.email) (lowerStr search) ||
        strIncludes c.phone search)
  rw [lowerStr_idem]
  congr 1
  unfold strIncludes
  exact decide_eq_decide.mpr (includes_phone_lower c.phone search hp)

/-- C10: when every stored phone consists only of `'+'` and digits, the
whole query result is invariant under lowercasing the search term: the
name/email tests lowercase both sides anyway, the phone test cannot tell the
two terms apart on such phones, and the empty-term dispatch is unchanged
because lowercasing preserves emptiness. -/
theorem search_term_lowercase_invariant (now : Int) (store : List Customer)
    (offset limit : Nat) (search : String) (sortBy : SortField)
    (sortOrder : SortOrder)
    (hp : ∀ r ∈ store, ∀ c ∈ r.phone.data, c = '+' ∨ c.isDigit = true) :
    getCustomers now store offset limit (lowerStr search) sortBy sortOrder =
      getCustomers now store offset limit search sortBy sortOrder := by
  by_cases hs : search = ""
  · subst hs
    rfl
  · have hs' : lowerStr search ≠ "" :=
      fun h => hs ((lowerStr_eq_empty_iff search).mp h)
    unfold getCustomers
    rw [if_neg hs', if_neg hs]
    unfold getCustomersSearch
    have hres : searchResults store (lowerStr search) = searchResults store search := by
      unfold searchResults
      apply List.filter_congr
      intro r hr
      exact matchesSearch_lower search r (hp r hr)
    rw [hres]

theorem search_term_lowercase_invariant_witness :
    getCustomers 0 [generateCustomer 0 1] 0 30 (lowerStr "JOHN") .id .asc =
      getCustomers 0 [generateCustomer 0 1] 0 30 "JOHN" .id .asc :=
  search_term_lowercase_invariant 0 [generateCustomer 0 1] 0 30 "JOHN" .id .asc
    (by decide)

theorem decCharsAux_eq : ∀ (fuel n : Nat), n ≤ fuel →
    decCharsAux fuel n =
      ((Nat.digits 10 n).map (fun d => Char.ofNat (48 + d))).reverse := by
  intro fuel
  induction fuel with
  | zero =>
    intro n hn
    have h0 : n = 0 := by omega
    subst h0
    simp [decCharsAux]
  | succ fuel ih =>
    intro n hn
    cases n with
    | zero => simp [decCharsAux]
    | succ m =>
      have hdiv : (m + 1) / 10 < m + 1 := Nat.div_lt_self (Nat.succ_pos m) (by norm_num)
      rw [show decCharsAux (fuel + 1) (m + 1) =
            decCharsAux fuel ((m + 1) / 10) ++ [Char.ofNat (48 + (m + 1) % 10)] from rfl]
      rw [ih ((m + 1) / 10) (by omega)]
      rw [Nat.digits_def' (by norm_num : (1 : Nat) < 10) (Nat.succ_pos m)]
      simp

theorem decChars_inj {m n : Nat} (hm : 1 ≤ m) (hn : 1 ≤ n)
    (h : decChars m = decChars n) : m = n := by
  unfold decChars at h
  rw [if_neg (by omega), if_neg (by omega)] at h
  rw [decCharsAux_eq m m le_rfl, decCharsAux_eq n n le_rfl] at h
  have h2 : (Nat.digits 10 m).map (fun d => Char.ofNat (48 + d)) =
      (Nat.digits 10 n).map (fun d => Char.ofNat (48 + d)) :=
    List.reverse_injective h
  have key : ∀ k : Nat,
      (((Nat.digits 10 k).map (fun d => Char.ofNat (48 + d))).map
        (fun c => c.toNat - 48)) = Nat.digits 10 k := by
    intro k
    rw [List.map_map]
    have hpt : ∀ d ∈ Nat.digits 10 k,
        ((fun c : Char => c.toNat - 48) ∘ (fun d => Char.ofNat (48 + d))) d = d := by
      intro d hd
      have hd10 : d < 10 := Nat.digits_lt_base (by norm_num) hd
      show (Char.ofNat (48 + d)).toNat - 48 = d
      rw [toNat_ofNat_valid (Or.inl (by omega))]
      omega
    rw [List.map_congr_left hpt]
    exact List.map_id _
  have h3 := congrArg (List.map (fun c : Char => c.toNat - 48)) h2
  rw [key m, key n] at h3
  have h4 := congrArg (Nat.ofDigits 10) h3
  rwa [Nat.ofDigits_digits, Nat.ofDigits_digits] at h4

theorem decChars_all_digit (n : Nat) : ∀ c ∈ decChars n, c.isDigit = true := by
  unfold decChars
  split
  · intro c hc
    simp only [List.mem_singleton] at hc
    subst hc
    decide
  · intro c hc
    rw [decCharsAux_eq n n le_rfl, List.mem_reverse] at hc
    obtain ⟨d, hd, hdc⟩ := List.mem_map.mp hc
    subst hdc
    have hd10 : d < 10 := Nat.digits_lt_base (by norm_num) hd
    rw [isDigit_iff, toNat_ofNat_valid (Or.inl (by omega))]
    omega

/-- The lowered form of a name-table entry is nonempty and contains neither
a digit nor an `'@'`. -/
def goodLowerName (s : String) : Bool :=
  !(lowerStr s).data.isEmpty &&
    (lowerStr s).data.all fun c => !c.isDigit && decide (c ≠ '@')

theorem firstNames_good : firstNames.all goodLowerName = true := by decide

theorem lastNames_good : lastNames.all goodLowerName = true := by decide

theorem getD_mem_of_lt {α : Type} (l : List α) (i : Nat) (d : α)
    (h : i < l.length) : l.getD i d ∈ l := by
  rw [List.getD_eq_getElem?_getD, List.getElem?_eq_getElem h]
  exact List.getElem_mem h

theorem goodLower_chars {l : List String} (hall : l.all goodLowerName = true)
    {s : String} (hmem : s ∈ l) :
    ∀ c ∈ (lowerStr s).data, c.isDigit = false ∧ c ≠ '@' := by
  intro c hc
  have hg := List.all_eq_true.mp hall s hmem
  unfold goodLowerName at hg
  rw [Bool.and_eq_true] at hg
  have h2 := List.all_eq_true.mp hg.2 c hc
  rw [Bool.and_eq_true, Bool.not_eq_true', decide_eq_true_eq] at h2
  exact h2

/-- The part of a generated email before the embedded decimal id: the
lowercased first name, a dot, the lowercased last name. -/
def emailPre (id : Nat) : List Char :=
  (lowerStr (firstNames.getD (id % firstNames.length) "")).data ++
    '.' :: (lowerStr (lastNames.getD
      ((id / firstNames.length) % lastNames.length) "")).data

theorem generateCustomer_email (now : Int) (id : Nat) :
    (generateCustomer now id).email =
      lowerStr (firstNames.getD (id % firstNames.length) "") ++ "." ++
        lowerStr (lastNames.getD ((id / firstNames.length) % lastNames.length) "") ++
        decString id ++ "@" ++ domains.getD (id % domains.length) "" := rfl

theorem email_data (now : Int) (id : Nat) :
    (generateCustomer now id).email.data =
      (emailPre id ++ decChars id) ++
        '@' :: (domains.getD (id % domains.length) "").data := by
  have hdot : ("." : String).data = ['.'] := rfl
  have hat : ("@" : String).data = ['@'] := rfl
  have hdec : (decString id).data = decChars id := rfl
  rw [generateCustomer_email]
  simp [String.data_append, hdot, hat, hdec, emailPre, List.append_assoc]

theorem emailPre_chars (id : Nat) :
    ∀ c ∈ emailPre id, c.isDigit = false ∧ c ≠ '@' := by
  intro c hc
  unfold emailPre at hc
  rw [List.mem_append] at hc
  rcases hc with hc | hc
  · refine goodLower_chars firstNames_good (getD_mem_of_lt _ _ _ ?_) c hc
    rw [show firstNames.length = 64 from rfl]
    exact Nat.mod_lt _ (by norm_num)
  · rw [List.mem_cons] at hc
    rcases hc with hc | hc
    · subst hc
      exact ⟨by decide, by decide⟩
    · refine goodLower_chars lastNames_good (getD_mem_of_lt _ _ _ ?_) c hc
      rw [show lastNames.length = 56 from rfl]
      exact Nat.mod_lt _ (by norm_num)

theorem append_eq_append_of_notMem {α : Type} (a : α) :
    ∀ (xs ys us vs : List α), a ∉ xs → a ∉ ys →
      xs ++ a :: us = ys ++ a :: vs → xs = ys ∧ us = vs := by
  intro xs
  induction xs with
  | nil =>
    intro ys us vs _ hy h
    cases ys with
    | nil =>
      simp only [List.nil_append] at h
      injection h with _ h2
      exact ⟨rfl, h2⟩
    | cons y t =>
      simp only [List.nil_append, List.cons_append] at h
      injection h with h1 _
      cases h1
      exact absurd (List.mem_cons_self _ _) hy
  | cons x t ih =>
    intro ys us vs hx hy h
    cases ys with
    | nil =>
      simp only [List.nil_append, List.cons_append] at h
      injection h with h1 _
      cases h1
      exact absurd (List.mem_cons_self _ _) hx
    | cons y s =>
      simp only [List.cons_append] at h
      injection h with h1 h2
      obtain ⟨ht, hu⟩ := ih s us vs (fun hm => hx (List.mem_cons_of_mem _ hm))
        (fun hm => hy (List.mem_cons_of_mem _ hm)) h2
      exact ⟨by rw [h1, ht], hu⟩

/-- If a run satisfying a predicate is followed by a run violating it on its
head side, the leading run is determined: two such decompositions of one
list have equal leading runs. -/
theorem digit_run_eq {p : Char → Bool} :
    ∀ (d1 e1 d2 e2 : List Char),
      (∀ c ∈ d1, p c = true) → (∀ c ∈ d2, p c = true) →
      (∀ c ∈ e1, p c = false) → (∀ c ∈ e2, p c = false) →
      d1 ++ e1 = d2 ++ e2 → d1 = d2 := by
  intro d1
  induction d1 with
  | nil =>
    intro e1 d2 e2 _ hd2 he1 _ h
    cases d2 with
    | nil => rfl
    | cons c t =>
      exfalso
      simp only [List.nil_append, List.cons_append] at h
      have hc1 : c ∈ e1 := by rw [h]; exact List.mem_cons_self _ _
      have hf := he1 c hc1
      have ht := hd2 c (List.mem_cons_self _ _)
      rw [ht] at hf
      exact Bool.noConfusion hf
  | cons c t ih =>
    intro e1 d2 e2 hd1 hd2 he1 he2 h
    cases d2 with
    | nil =>
      exfalso
      simp only [List.nil_append, List.cons_append] at h
      have hc2 : c ∈ e2 := by rw [← h]; exact List.mem_cons_self _ _
      have hf := he2 c hc2
      have ht := hd1 c (List.mem_cons_self _ _)
      rw [ht] at hf
      exact Bool.noConfusion hf
    | cons c2 t2 =>
      simp only [List.cons_append] at h
      injection h with h1 h2
      rw [h1, ih e1 t2 e2 (fun x hx => hd1 x (List.mem_cons_of_mem _ hx))
        (fun x hx => hd2 x (List.mem_cons_of_mem _ hx)) he1 he2 h2]

/-- C9: distinct positive ids generate distinct emails: the decimal digits
of the id sit between the digit-free name stem and the (unique) `'@'`, so
the id is recoverable from the email string. -/
theorem generateCustomer_email_injective (now : Int) (id1 id2 : Nat)
    (h1 : 1 ≤ id1) (h2 : 1 ≤ id2) (hne : id1 ≠ id2) :
    (generateCustomer now id1).email ≠ (generateCustomer now id2).email := by
  intro heq
  apply hne
  have hdata : (emailPre id1 ++ decChars id1) ++
      '@' :: (domains.getD (id1 % domains.length) "").data =
      (emailPre id2 ++ decChars id2) ++
      '@' :: (domains.getD (id2 % domains.length) "").data := by
    rw [← email_data now id1, ← email_data now id2, heq]
  have hnotat : ∀ id : Nat, '@' ∉ emailPre id ++ decChars id := by
    intro id hmem
    rw [List.mem_append] at hmem
    rcases hmem with hmem | hmem
    · exact (emailPre_chars id '@' hmem).2 rfl
    · exact absurd (decChars_all_digit id '@' hmem) (by decide)
  obtain ⟨hbefore, _⟩ := append_eq_append_of_notMem '@' _ _ _ _
    (hnotat id1) (hnotat id2) hdata
  have hrev := congrArg List.reverse hbefore
  rw [List.reverse_append, List.reverse_append] at hrev
  have hd : (decChars id1).reverse = (decChars id2).reverse := by
    refine digit_run_eq (p := Char.isDigit) _ _ _ _ ?_ ?_ ?_ ?_ hrev
    · intro c hc
      exact decChars_all_digit id1 c (List.mem_reverse.mp hc)
    · intro c hc
      exact decChars_all_digit id2 c (List.mem_reverse.mp hc)
    · intro c hc
      exact (emailPre_chars id1 c (List.mem_reverse.mp hc)).1
    · intro c hc
      exact (emailPre_chars id2 c (List.mem_reverse.mp hc)).1
  exact decChars_inj h1 h2 (List.reverse_injective hd)

theorem generateCustomer_email_injective_witness :
    (generateCustomer 0 1).email ≠ (generateCustomer 0 2).email :=
  generateCustomer_email_injective 0 1 2 le_rfl (by omega) (by omega)

end DoubleTick
